import Mathlib

/-!
Shallow embedding of the idempotency coordination logic of the
TypeScript-Idempotency-with-Redis repository.

The embedded pieces are:
* `idempotencyMiddleware` — `src/middlewares/idempotency.middleware.ts`:
  validates the HTTP method and the idempotency key, hashes the body,
  performs the two-tier lookup (Redis cache first, then the durable
  `idempotency_meta` table) and decides between conflict / expiry / replay /
  admitting the request.
* `createTransaction` — `TransactionService.createTransaction` in
  `src/services/transaction.service.ts`: opens a database transaction,
  creates the business record, inserts the idempotency record, writes the
  Redis cache entry, and commits; any thrown error rolls the database
  transaction back and is mapped to an error result in the `catch` block.

Modelling conventions:
* Times are epoch milliseconds as `Int`; `Date` comparisons such as
  `new Date(expiredAt) < currentTime` become `Int` comparisons.
* The SHA-256 body fingerprint is not computed; functions take the already
  computed `bodyHash` string.  Claims about "different fingerprints" are
  stated over distinct hash strings.
* The Redis cache is an association list from the full Redis key
  (`prefix ++ ":" ++ idempotencyKey`) to the stored record; the durable
  table is a list of rows.  Awaited store calls that can throw are modelled
  with explicit fault-injection flags (`Faults`).
* Rollback semantics: only committed state is observable, so the staged
  inserts of an open database transaction appear in the result state only
  on the commit branch; every throwing branch returns the pre-transaction
  durable state, exactly as `rollbackTransaction` leaves it.
-/

namespace Idem

/-- JavaScript's `String.prototype.trim()`: drop whitespace from both ends
of the string (modelled with `Char.isWhitespace`). -/
def jsTrim (s : String) : String :=
  ⟨((s.data.dropWhile Char.isWhitespace).reverse.dropWhile Char.isWhitespace).reverse⟩

/-- A row of the `idempotency_meta` table (model `IdempotencyMeta` in
`src/models/idempotency-meta.model.ts`), which is also the value shape
cached in Redis.  `expiredAt` is `Option` because the column is nullable
(`allowNull: true`) and the middleware guards on its truthiness. -/
structure IdempotencyMeta where
  key : String
  bodyHash : String
  responsePayload : String
  expiredAt : Option Int
  deriving Repr, DecidableEq

/-- `const idempotentMethods = ['POST', 'PUT', 'PATCH']` in the middleware. -/
def idempotentMethods : List String := ["POST", "PUT", "PATCH"]

/-- The Redis key for an idempotency key:
`process.env.IDEMPOTENCY_PREFIX ? prefix + ":" + key : "idempotency:" + key`. -/
def redisKeyFor (pfx : Option String) (k : String) : String :=
  match pfx with
  | some p => p ++ ":" ++ k
  | none => "idempotency:" ++ k

/-- Redis cache contents: an association list from Redis key to the stored
record (`RedisUtil.set` stores a JSON serialization of the record;
`RedisUtil.get` parses it back, so storing the record itself is faithful). -/
structure CacheState where
  entries : List (String × IdempotencyMeta)
  deriving Repr, DecidableEq

/-- `RedisUtil.get(key)`: the cached record for the key, if present. -/
def cacheGet (c : CacheState) (rk : String) : Option IdempotencyMeta :=
  match c.entries.find? (fun e => e.1 == rk) with
  | some e => some e.2
  | none => none

/-- `RedisUtil.set(key, value, ttl)`: bind the key to the value (replacing
any previous binding).  The Redis-level TTL only affects real-time eviction
and is not part of the observable state modelled here. -/
def cacheSet (c : CacheState) (rk : String) (v : IdempotencyMeta) : CacheState :=
  ⟨(rk, v) :: c.entries.filter (fun e => !(e.1 == rk))⟩

/-- A read issued by the middleware against one of the two stores. -/
inductive StoreOp where
  | cacheGetOp (rk : String)
  | dbFindOne (key bodyHash : String)
  deriving Repr, DecidableEq

/-- Outcome of the idempotency middleware.  The `throw AppError...` exits
become error constructors; a 200 replay of the stored payload becomes
`replay`; falling through to `next()` with the idempotency context attached
to the request becomes `proceed`. -/
inductive AdmitResult where
  | methodNotAllowed
  | invalidKey
  | conflict
  | expired
  | replay (payload : String)
  | proceed (key bodyHash : String)
  deriving Repr, DecidableEq

/-- `IdempotencyMeta.findOne({ where: { key: idempotencyKey, bodyHash:
requestBodyHash } })`: the durable lookup filtered by BOTH the key and the
current request's body hash. -/
def findOneByKeyAndHash (db : List IdempotencyMeta) (k h : String) :
    Option IdempotencyMeta :=
  db.find? (fun m => m.key == k && m.bodyHash == h)

/-- The mismatch / expiry / replay logic the middleware applies to a record
found in either tier (the two code blocks are textually identical):
conflict if the stored `bodyHash` differs from the request's, expired if
`expiredAt` is set and strictly before `now`, otherwise replay the stored
`responsePayload`. -/
def checkRecord (now : Int) (rec : IdempotencyMeta) (bodyHash : String) :
    AdmitResult :=
  if rec.bodyHash ≠ bodyHash then .conflict
  else
    match rec.expiredAt with
    | some e => if e < now then .expired else .replay rec.responsePayload
    | none => .replay rec.responsePayload

/-- `idempotencyMiddleware` from `src/middlewares/idempotency.middleware.ts`.
`headerKey` is the value of the idempotency header (`none` when the header
is absent).  Besides the decision it returns, in order, the store reads it
performed, so that "no store access happens before validation" is a
statement about the code rather than about the embedding. -/
def idempotencyMiddleware (now : Int) (method : String)
    (headerKey : Option String) (requestBodyHash : String)
    (pfx : Option String) (cache : CacheState) (db : List IdempotencyMeta) :
    AdmitResult × List StoreOp :=
  if !(idempotentMethods.contains method) then (.methodNotAllowed, [])
  else
    match headerKey with
    | none => (.invalidKey, [])
    | some k =>
      if jsTrim k = "" then (.invalidKey, [])
      else
        let rk := redisKeyFor pfx k
        match cacheGet cache rk with
        | some alreadyProcessed =>
          (checkRecord now alreadyProcessed requestBodyHash, [.cacheGetOp rk])
        | none =>
          match findOneByKeyAndHash db k requestBodyHash with
          | some idempotencyMeta =>
            (checkRecord now idempotencyMeta requestBodyHash,
              [.cacheGetOp rk, .dbFindOne k requestBodyHash])
          | none =>
            (.proceed k requestBodyHash,
              [.cacheGetOp rk, .dbFindOne k requestBodyHash])

/-- Transaction type: `z.enum(['payment', 'withdrawal', 'disbursement'])`. -/
inductive TxType where
  | payment
  | withdrawal
  | disbursement
  deriving Repr, DecidableEq

def txTypeStr : TxType → String
  | .payment => "payment"
  | .withdrawal => "withdrawal"
  | .disbursement => "disbursement"

/-- The validated transaction request body (`TransactionRequest` in
`src/dtos/transaction-request.dto.ts`).  Monetary amounts are modelled as
integers. -/
structure TransactionRequest where
  type : TxType
  amount : Int
  consumerId : String
  deriving Repr, DecidableEq

def isHexDigit (c : Char) : Bool :=
  c.isDigit || ('a' ≤ c && c ≤ 'f') || ('A' ≤ c && c ≤ 'F')

/-- Model of zod's `z.string().uuid()` check on `consumerId`: 36 characters
in the 8-4-4-4-12 hyphenated hex shape (the library's exact regex also
constrains version/variant nibbles; no claim depends on that refinement). -/
def isUuidLike (s : String) : Bool :=
  let cs := s.data
  cs.length == 36 &&
    (List.range 36).all (fun i =>
      if i = 8 ∨ i = 13 ∨ i = 18 ∨ i = 23 then cs.getD i ' ' == '-'
      else isHexDigit (cs.getD i ' '))

/-- `TransactionRequestSchema.safeParse` success on the typed request: the
enum is enforced by `TxType`, `amount` must satisfy `min(0)`, and
`consumerId` must be a UUID. -/
def validRequest (r : TransactionRequest) : Bool :=
  decide (0 ≤ r.amount) && isUuidLike r.consumerId

/-- A committed row of the business `transactions` table
(`Transaction.create` sets `status: 'pending'`; `id`/timestamps are
database-generated, passed in explicitly here). -/
structure TransactionRec where
  id : String
  type : TxType
  amount : Int
  status : String
  consumerId : String
  createdAt : Int
  deriving Repr, DecidableEq

/-- `TransactionResponse` (`src/dtos/transaction-response.dto.ts`) as built
from the freshly created row. -/
structure TransactionResponse where
  id : String
  type : TxType
  amount : Int
  status : String
  consumerId : String
  createdAt : Int
  deriving Repr, DecidableEq

/-- `JSON.stringify(transactionResponse)`: a deterministic serialization of
the response in declaration order of the fields. -/
def serializeResponse (r : TransactionResponse) : String :=
  "\x7b\"id\":\"" ++ r.id ++ "\",\"type\":\"" ++ txTypeStr r.type ++
    "\",\"amount\":" ++ toString r.amount ++ ",\"status\":\"" ++ r.status ++
    "\",\"consumerId\":\"" ++ r.consumerId ++ "\",\"createdAt\":" ++
    toString r.createdAt ++ "\x7d"

/-- Environment-driven configuration read inside the service and the
middleware (`IDEMPOTENCY_PREFIX`, `IDEMPOTENCY_TTL_HOURS`); `none` models
an unset variable, which selects the hard-coded default. -/
structure Env where
  pfx : Option String
  ttlHours : Option Nat
  deriving Repr, DecidableEq

/-- `expiredAt = new Date(Date.now() + ttlHours*3600*1000)` with the
default of one hour when `IDEMPOTENCY_TTL_HOURS` is unset. -/
def ttlMillis (env : Env) : Int :=
  match env.ttlHours with
  | some hrs => (hrs : Int) * 3600 * 1000
  | none => 3600 * 1000

/-- Fault injection for the awaited calls inside the service's `try` block
that can throw: `Transaction.create`, `IdempotencyMeta.create` (for reasons
other than the key constraint, which is determined by the state),
`RedisUtil.set`, and `commitTransaction`. -/
structure Faults where
  createFails : Bool
  metaInsertFails : Bool
  redisSetFails : Bool
  commitFails : Bool
  deriving Repr, DecidableEq

def noFaults : Faults := ⟨false, false, false, false⟩

/-- Committed durable-store state: the business `transactions` table and
the `idempotency_meta` table. -/
structure DurableState where
  transactions : List TransactionRec
  idempotencyMetas : List IdempotencyMeta
  deriving Repr, DecidableEq

/-- Outcome of `TransactionService.createTransaction`, one constructor per
distinct `AppError` raised or mapped in the service. `badRequestValidationErrors`
is the `catch` branch mapping a Sequelize `ValidationError` — which is what a
violation of the `idempotency_meta` primary-key constraint on `key` raises
(`UniqueConstraintError extends ValidationError`) — to
`AppError.BadRequest("Validation errors occurred", ...)`. -/
inductive ExecResult where
  | ok (resp : TransactionResponse)
  | badRequestInvalidKey
  | badRequestInvalidRequest
  | badRequestValidationErrors
  | internalError
  deriving Repr, DecidableEq

def ExecResult.isOk : ExecResult → Bool
  | .ok _ => true
  | _ => false

/-- `TransactionService.createTransaction` from
`src/services/transaction.service.ts`.  `newId` stands for the
database-generated UUID of the business row and `now` for `Date.now()`.
Order of operations inside the database transaction, as in the source:
create the business row, build the response, insert the idempotency row
(the primary key on `key` makes the insert throw when a committed row with
the same key exists), write the Redis entry, then commit.  Every throwing
branch triggers `rollbackTransaction`, so the durable state it returns is
the input state; a Redis write that already succeeded is not undone by the
rollback. -/
def createTransaction (env : Env) (now : Int) (f : Faults) (newId : String)
    (idempotencyKey bodyHash : String) (req : TransactionRequest)
    (s : DurableState) (c : CacheState) :
    ExecResult × DurableState × CacheState :=
  if jsTrim idempotencyKey = "" then (.badRequestInvalidKey, s, c)
  else if !(validRequest req) then (.badRequestInvalidRequest, s, c)
  else if f.createFails then (.internalError, s, c)
  else
    let txn : TransactionRec :=
      { id := newId, type := req.type, amount := req.amount,
        status := "pending", consumerId := req.consumerId, createdAt := now }
    let transactionResponse : TransactionResponse :=
      { id := txn.id, type := txn.type, amount := txn.amount,
        status := txn.status, consumerId := txn.consumerId,
        createdAt := txn.createdAt }
    let meta : IdempotencyMeta :=
      { key := idempotencyKey, bodyHash := bodyHash,
        responsePayload := serializeResponse transactionResponse,
        expiredAt := some (now + ttlMillis env) }
    if s.idempotencyMetas.any (fun m => m.key == idempotencyKey) then
      (.badRequestValidationErrors, s, c)
    else if f.metaInsertFails then (.internalError, s, c)
    else if f.redisSetFails then (.internalError, s, c)
    else
      let c' := cacheSet c (redisKeyFor env.pfx idempotencyKey) meta
      if f.commitFails then (.internalError, s, c')
      else
        (.ok transactionResponse,
          ⟨s.transactions ++ [txn], s.idempotencyMetas ++ [meta]⟩, c')

/-! ### Helper lemmas -/

theorem jsTrim_eq_empty {s : String} (hws : ∀ c ∈ s.data, c.isWhitespace) :
    jsTrim s = "" := by
  have h1 : s.data.dropWhile Char.isWhitespace = [] :=
    List.dropWhile_eq_nil_iff.mpr hws
  simp [jsTrim, h1]

theorem findOneByKeyAndHash_bodyHash {db : List IdempotencyMeta}
    {k h : String} {rec : IdempotencyMeta}
    (hf : findOneByKeyAndHash db k h = some rec) : rec.bodyHash = h := by
  have hp := List.find?_some hf
  simp only [Bool.and_eq_true, beq_iff_eq] at hp
  exact hp.2

theorem cacheGet_cacheSet_self (c : CacheState) (rk : String)
    (v : IdempotencyMeta) : cacheGet (cacheSet c rk v) rk = some v := by
  simp [cacheGet, cacheSet]

theorem checkRecord_of_match {rec : IdempotencyMeta} {h : String}
    (now : Int) (hb : rec.bodyHash = h) :
    checkRecord now rec h =
      match rec.expiredAt with
      | some e => if e < now then .expired else .replay rec.responsePayload
      | none => .replay rec.responsePayload := by
  simp [checkRecord, hb]

theorem checkRecord_ne_conflict_of_match {rec : IdempotencyMeta}
    {h : String} (now : Int) (hb : rec.bodyHash = h) :
    checkRecord now rec h ≠ .conflict := by
  rw [checkRecord_of_match now hb]
  cases rec.expiredAt with
  | none => simp
  | some e =>
    by_cases he : e < now <;> simp [he]

/-- Reduction of the middleware on a cache hit (valid method and key). -/
theorem middleware_cacheHit {now : Int} {method k requestBodyHash : String}
    {pfx : Option String} {cache : CacheState} {db : List IdempotencyMeta}
    {rec : IdempotencyMeta}
    (hm : idempotentMethods.contains method = true)
    (hk : jsTrim k ≠ "")
    (hc : cacheGet cache (redisKeyFor pfx k) = some rec) :
    idempotencyMiddleware now method (some k) requestBodyHash pfx cache db =
      (checkRecord now rec requestBodyHash,
        [.cacheGetOp (redisKeyFor pfx k)]) := by
  have hmem : method ∈ idempotentMethods := by simpa using hm
  simp [idempotencyMiddleware, hmem, hk, hc]

/-- Reduction of the middleware on a cache miss followed by a hit of the
durable lookup (valid method and key). -/
theorem middleware_dbHit {now : Int} {method k requestBodyHash : String}
    {pfx : Option String} {cache : CacheState} {db : List IdempotencyMeta}
    {rec : IdempotencyMeta}
    (hm : idempotentMethods.contains method = true)
    (hk : jsTrim k ≠ "")
    (hc : cacheGet cache (redisKeyFor pfx k) = none)
    (hdb : findOneByKeyAndHash db k requestBodyHash = some rec) :
    idempotencyMiddleware now method (some k) requestBodyHash pfx cache db =
      (checkRecord now rec requestBodyHash,
        [.cacheGetOp (redisKeyFor pfx k),
          .dbFindOne k requestBodyHash]) := by
  have hmem : method ∈ idempotentMethods := by simpa using hm
  simp [idempotencyMiddleware, hmem, hk, hc, hdb]

/-- Reduction of the middleware on a total miss (valid method and key). -/
theorem middleware_totalMiss {now : Int} {method k requestBodyHash : String}
    {pfx : Option String} {cache : CacheState} {db : List IdempotencyMeta}
    (hm : idempotentMethods.contains method = true)
    (hk : jsTrim k ≠ "")
    (hc : cacheGet cache (redisKeyFor pfx k) = none)
    (hdb : findOneByKeyAndHash db k requestBodyHash = none) :
    idempotencyMiddleware now method (some k) requestBodyHash pfx cache db =
      (.proceed k requestBodyHash,
        [.cacheGetOp (redisKeyFor pfx k),
          .dbFindOne k requestBodyHash]) := by
  have hmem : method ∈ idempotentMethods := by simpa using hm
  simp [idempotencyMiddleware, hmem, hk, hc, hdb]

theorem checkRecord_not_validation (now : Int) (rec : IdempotencyMeta)
    (h : String) :
    checkRecord now rec h ≠ .methodNotAllowed ∧
      checkRecord now rec h ≠ .invalidKey := by
  unfold checkRecord
  split
  · simp
  · split
    · split <;> simp
    · simp

/-! ### Claim theorems -/

/-- **C5**: a stored record whose `expiredAt` lies strictly in the past,
looked up with the original matching payload, yields the expired rejection
and never a replay, and the expiry check applies on both the cache-hit path
and the durable-store-hit path. -/
theorem expiryEnforcedBothTiers (now e : Int)
    (method k requestBodyHash : String) (pfx : Option String)
    (cache : CacheState) (db : List IdempotencyMeta) (rec : IdempotencyMeta)
    (hm : idempotentMethods.contains method = true)
    (hk : jsTrim k ≠ "")
    (hb : rec.bodyHash = requestBodyHash)
    (he : rec.expiredAt = some e)
    (hlt : e < now) :
    (cacheGet cache (redisKeyFor pfx k) = some rec →
      (idempotencyMiddleware now method (some k) requestBodyHash pfx cache
          db).1 = .expired) ∧
    (cacheGet cache (redisKeyFor pfx k) = none →
      findOneByKeyAndHash db k requestBodyHash = some rec →
      (idempotencyMiddleware now method (some k) requestBodyHash pfx cache
          db).1 = .expired) := by
  have hcheck : checkRecord now rec requestBodyHash = .expired := by
    rw [checkRecord_of_match now hb, he]
    simp [hlt]
  constructor
  · intro hc
    rw [middleware_cacheHit hm hk hc]
    exact hcheck
  · intro hc hdb
    rw [middleware_dbHit hm hk hc hdb]
    exact hcheck

/-- Witness for `expiryEnforcedBothTiers` at a concrete expired record on
the cache tier. -/
theorem expiryEnforcedBothTiers_witness :
    (idempotencyMiddleware 10 "POST" (some "k1") "h1" none
        ⟨[("idempotency:k1", ⟨"k1", "h1", "resp1", some 3⟩)]⟩ []).1 =
      .expired :=
  (expiryEnforcedBothTiers 10 3 "POST" "k1" "h1" none
      ⟨[("idempotency:k1", ⟨"k1", "h1", "resp1", some 3⟩)]⟩ []
      ⟨"k1", "h1", "resp1", some 3⟩ (by decide) (by decide) (by decide)
      (by decide) (by decide)).1 (by decide)

/-- **C7**: whenever the middleware fails with `methodNotAllowed` or
`invalidKey`, no cache or durable-store access has been performed: the list
of store reads it issued is empty. -/
theorem validationBeforeStoreAccess (now : Int) (method : String)
    (headerKey : Option String) (requestBodyHash : String)
    (pfx : Option String) (cache : CacheState) (db : List IdempotencyMeta)
    (hres : (idempotencyMiddleware now method headerKey requestBodyHash pfx
          cache db).1 = .methodNotAllowed ∨
        (idempotencyMiddleware now method headerKey requestBodyHash pfx
          cache db).1 = .invalidKey) :
    (idempotencyMiddleware now method headerKey requestBodyHash pfx cache
        db).2 = [] := by
  by_cases hm : idempotentMethods.contains method = true
  · have hmem : method ∈ idempotentMethods := by simpa using hm
    cases headerKey with
    | none => simp [idempotencyMiddleware, hmem]
    | some k =>
      by_cases hk : jsTrim k = ""
      · simp [idempotencyMiddleware, hmem, hk]
      · exfalso
        cases hc : cacheGet cache (redisKeyFor pfx k) with
        | some rec =>
          rw [middleware_cacheHit hm hk hc] at hres
          rcases hres with hres | hres
          · exact (checkRecord_not_validation now rec requestBodyHash).1 hres
          · exact (checkRecord_not_validation now rec requestBodyHash).2 hres
        | none =>
          cases hdb : findOneByKeyAndHash db k requestBodyHash with
          | some rec =>
            rw [middleware_dbHit hm hk hc hdb] at hres
            rcases hres with hres | hres
            · exact (checkRecord_not_validation now rec requestBodyHash).1
                hres
            · exact (checkRecord_not_validation now rec requestBodyHash).2
                hres
          | none =>
            rw [middleware_totalMiss hm hk hc hdb] at hres
            rcases hres with hres | hres <;> simp at hres
  · have hmem : ¬ method ∈ idempotentMethods := by
      intro hin
      exact hm (by simpa using hin)
    simp [idempotencyMiddleware, hmem]

/-- Witness for `validationBeforeStoreAccess` on a `GET` request. -/
theorem validationBeforeStoreAccess_witness :
    (idempotencyMiddleware 0 "GET" (some "k1") "h1" none ⟨[]⟩ []).2 = [] :=
  validationBeforeStoreAccess 0 "GET" (some "k1") "h1" none ⟨[]⟩ []
    (Or.inl (by decide))

/-- **C8**: on the durable-store-hit path the conflict branch is
unreachable — the durable lookup filters by both `key` and the current
`bodyHash`, so with the cache missing the middleware can never answer with
the conflict rejection. -/
theorem durableConflictBranchUnreachable (now : Int)
    (method k requestBodyHash : String) (pfx : Option String)
    (cache : CacheState) (db : List IdempotencyMeta)
    (hc : cacheGet cache (redisKeyFor pfx k) = none) :
    (idempotencyMiddleware now method (some k) requestBodyHash pfx cache
        db).1 ≠ .conflict := by
  by_cases hm : idempotentMethods.contains method = true
  · have hmem : method ∈ idempotentMethods := by simpa using hm
    by_cases hk : jsTrim k = ""
    · simp [idempotencyMiddleware, hmem, hk]
    · cases hdb : findOneByKeyAndHash db k requestBodyHash with
      | some rec =>
        rw [middleware_dbHit hm hk hc hdb]
        exact checkRecord_ne_conflict_of_match now
          (findOneByKeyAndHash_bodyHash hdb)
      | none =>
        rw [middleware_totalMiss hm hk hc hdb]
        simp
  · have hmem : ¬ method ∈ idempotentMethods := by
      intro hin
      exact hm (by simpa using hin)
    simp [idempotencyMiddleware, hmem]

/-- Witness for `durableConflictBranchUnreachable`: durable row for the key
with a different hash, empty cache — the decision is not `conflict`. -/
theorem durableConflictBranchUnreachable_witness :
    (idempotencyMiddleware 0 "POST" (some "k1") "h2" none ⟨[]⟩
        [⟨"k1", "h1", "resp1", some 100⟩]).1 ≠ .conflict :=
  durableConflictBranchUnreachable 0 "POST" "k1" "h2" none ⟨[]⟩
    [⟨"k1", "h1", "resp1", some 100⟩] (by decide)

/-- **C9**: a stored record whose `expiredAt` is absent skips the expiry
check entirely: with the matching payload the middleware replays the stored
response at every current time, on both tiers. -/
theorem nullExpiryNeverExpires (now : Int)
    (method k requestBodyHash : String) (pfx : Option String)
    (cache : CacheState) (db : List IdempotencyMeta) (rec : IdempotencyMeta)
    (hm : idempotentMethods.contains method = true)
    (hk : jsTrim k ≠ "")
    (hb : rec.bodyHash = requestBodyHash)
    (he : rec.expiredAt = none) :
    (cacheGet cache (redisKeyFor pfx k) = some rec →
      (idempotencyMiddleware now method (some k) requestBodyHash pfx cache
          db).1 = .replay rec.responsePayload) ∧
    (cacheGet cache (redisKeyFor pfx k) = none →
      findOneByKeyAndHash db k requestBodyHash = some rec →
      (idempotencyMiddleware now method (some k) requestBodyHash pfx cache
          db).1 = .replay rec.responsePayload) := by
  have hcheck : checkRecord now rec requestBodyHash =
      .replay rec.responsePayload := by
    rw [checkRecord_of_match now hb, he]
  constructor
  · intro hc
    rw [middleware_cacheHit hm hk hc]
    exact hcheck
  · intro hc hdb
    rw [middleware_dbHit hm hk hc hdb]
    exact hcheck

/-- Witness for `nullExpiryNeverExpires` at a far-future time on the
durable tier. -/
theorem nullExpiryNeverExpires_witness :
    (idempotencyMiddleware 999999999999 "POST" (some "k1") "h1" none ⟨[]⟩
        [⟨"k1", "h1", "resp1", none⟩]).1 = .replay "resp1" :=
  (nullExpiryNeverExpires 999999999999 "POST" "k1" "h1" none ⟨[]⟩
      [⟨"k1", "h1", "resp1", none⟩] ⟨"k1", "h1", "resp1", none⟩
      (by decide) (by decide) (by decide) (by decide)).2 (by decide)
    (by decide)

/-- **C10**: a key made only of whitespace characters is rejected as an
invalid key, exactly like a missing or empty key, although it is a
non-empty string. -/
theorem whitespaceKeyInvalid (now : Int) (method k requestBodyHash : String)
    (pfx : Option String) (cache : CacheState) (db : List IdempotencyMeta)
    (hm : idempotentMethods.contains method = true)
    (hws : ∀ c ∈ k.data, c.isWhitespace) :
    (idempotencyMiddleware now method (some k) requestBodyHash pfx cache
        db).1 = .invalidKey := by
  have hmem : method ∈ idempotentMethods := by simpa using hm
  simp [idempotencyMiddleware, hmem, jsTrim_eq_empty hws]

/-- Witness for `whitespaceKeyInvalid` on the three-character key
`" \t "`, a non-empty string. -/
theorem whitespaceKeyInvalid_witness :
    (idempotencyMiddleware 0 "POST" (some " \t ") "h1" none ⟨[]⟩ []).1 =
      .invalidKey :=
  whitespaceKeyInvalid 0 "POST" " \t " "h1" none ⟨[]⟩ [] (by decide)
    (by decide)

/-- **C6**: whenever `createTransaction` does not succeed — whatever step
threw after the business effect was staged — the durable store is left
exactly as before the call: neither the business row nor the idempotency
row is observable. -/
theorem executeRollbackOnFailure (env : Env) (now : Int) (f : Faults)
    (newId idempotencyKey bodyHash : String) (req : TransactionRequest)
    (s : DurableState) (c : CacheState)
    (hfail : ((createTransaction env now f newId idempotencyKey bodyHash req
        s c).1).isOk = false) :
    (createTransaction env now f newId idempotencyKey bodyHash req s
        c).2.1 = s := by
  unfold createTransaction at hfail ⊢
  split_ifs at hfail ⊢ <;> simp_all [ExecResult.isOk]

/-- Witness for `executeRollbackOnFailure`: the idempotency-record insert
throws after the business row was created; the durable state is unchanged. -/
theorem executeRollbackOnFailure_witness :
    (createTransaction ⟨none, some 1⟩ 0 ⟨false, true, false, false⟩ "id-1"
        "k1" "h1" ⟨.payment, 100, "bffb7ddf-6bae-44c7-b912-e2cf7a3d78dd"⟩
        ⟨[], []⟩ ⟨[]⟩).2.1 = ⟨[], []⟩ :=
  executeRollbackOnFailure ⟨none, some 1⟩ 0 ⟨false, true, false, false⟩
    "id-1" "k1" "h1" ⟨.payment, 100, "bffb7ddf-6bae-44c7-b912-e2cf7a3d78dd"⟩
    ⟨[], []⟩ ⟨[]⟩ (by decide)

/-- **C4**: running Admit/Execute twice with the identical key and payload
— the first run admitted and persisted without faults, the second run
performed afterwards within the record's validity window — replays exactly
the serialized response of the first run, and exactly one business row was
added to the durable store. -/
theorem replayIdempotence (env : Env) (now now2 : Int)
    (newId method k bodyHash : String) (req : TransactionRequest)
    (s : DurableState) (c : CacheState)
    (hm : idempotentMethods.contains method = true)
    (hk : jsTrim k ≠ "")
    (hvalid : validRequest req = true)
    (hc : cacheGet c (redisKeyFor env.pfx k) = none)
    (hdb : findOneByKeyAndHash s.idempotencyMetas k bodyHash = none)
    (hkey : s.idempotencyMetas.any (fun m => m.key == k) = false)
    (hwin : ¬ (now + ttlMillis env < now2)) :
    (idempotencyMiddleware now method (some k) bodyHash env.pfx c
        s.idempotencyMetas).1 = .proceed k bodyHash ∧
    (createTransaction env now noFaults newId k bodyHash req s c).1 =
      .ok ⟨newId, req.type, req.amount, "pending", req.consumerId, now⟩ ∧
    (idempotencyMiddleware now2 method (some k) bodyHash env.pfx
        (createTransaction env now noFaults newId k bodyHash req s c).2.2
        (createTransaction env now noFaults newId k bodyHash req s
            c).2.1.idempotencyMetas).1 =
      .replay (serializeResponse
        ⟨newId, req.type, req.amount, "pending", req.consumerId, now⟩) ∧
    (createTransaction env now noFaults newId k bodyHash req s
        c).2.1.transactions =
      s.transactions ++
        [⟨newId, req.type, req.amount, "pending", req.consumerId, now⟩] := by
  have hk0 : ¬ jsTrim k = "" := hk
  have hrun : createTransaction env now noFaults newId k bodyHash req s c =
      (.ok ⟨newId, req.type, req.amount, "pending", req.consumerId, now⟩,
        ⟨s.transactions ++
            [⟨newId, req.type, req.amount, "pending", req.consumerId, now⟩],
          s.idempotencyMetas ++
            [⟨k, bodyHash,
              serializeResponse
                ⟨newId, req.type, req.amount, "pending", req.consumerId,
                  now⟩,
              some (now + ttlMillis env)⟩]⟩,
        cacheSet c (redisKeyFor env.pfx k)
          ⟨k, bodyHash,
            serializeResponse
              ⟨newId, req.type, req.amount, "pending", req.consumerId, now⟩,
            some (now + ttlMillis env)⟩) := by
    simp [createTransaction, hk0, hvalid, hkey, noFaults]
  refine ⟨?_, ?_, ?_, ?_⟩
  · rw [middleware_totalMiss hm hk hc hdb]
  · rw [hrun]
  · rw [hrun]
    rw [middleware_cacheHit hm hk
      (cacheGet_cacheSet_self c (redisKeyFor env.pfx k) _)]
    rw [checkRecord_of_match now2 rfl]
    simp [hwin]
  · rw [hrun]

/-- Witness for `replayIdempotence` at a concrete key, payload hash and
request, with the retry issued at the same instant. -/
theorem replayIdempotence_witness :
    (idempotencyMiddleware 0 "POST" (some "key-1") "h1" none
        (createTransaction ⟨none, some 1⟩ 0 noFaults "id-1" "key-1" "h1"
            ⟨.payment, 100, "bffb7ddf-6bae-44c7-b912-e2cf7a3d78dd"⟩ ⟨[], []⟩
            ⟨[]⟩).2.2
        (createTransaction ⟨none, some 1⟩ 0 noFaults "id-1" "key-1" "h1"
            ⟨.payment, 100, "bffb7ddf-6bae-44c7-b912-e2cf7a3d78dd"⟩ ⟨[], []⟩
            ⟨[]⟩).2.1.idempotencyMetas).1 =
      .replay (serializeResponse
        ⟨"id-1", .payment, 100, "pending",
          "bffb7ddf-6bae-44c7-b912-e2cf7a3d78dd", 0⟩) ∧
    (createTransaction ⟨none, some 1⟩ 0 noFaults "id-1" "key-1" "h1"
        ⟨.payment, 100, "bffb7ddf-6bae-44c7-b912-e2cf7a3d78dd"⟩ ⟨[], []⟩
        ⟨[]⟩).2.1.transactions =
      [⟨"id-1", .payment, 100, "pending",
        "bffb7ddf-6bae-44c7-b912-e2cf7a3d78dd", 0⟩] := by
  have h := replayIdempotence ⟨none, some 1⟩ 0 0 "id-1" "POST" "key-1" "h1"
    ⟨.payment, 100, "bffb7ddf-6bae-44c7-b912-e2cf7a3d78dd"⟩ ⟨[], []⟩ ⟨[]⟩
    (by decide) (by decide) (by decide) (by decide) (by decide) (by decide)
    (by decide)
  exact ⟨h.2.2.1, h.2.2.2⟩

/-- **C1**: with the cache empty and only a durable record for the key
(`bodyHash = "h1"`), a request reusing the key with a different fingerprint
`"h2"` is NOT rejected with the conflict decision — the durable lookup
filters by the current hash, misses, and admits the request; the follow-up
execution then dies on the `key` primary-key constraint, which the service
maps to the generic BadRequest for validation errors.  The rollback does
keep the business table free of a second row, so only the `KeyConflict`
half of the claim fails. -/
theorem durableOnlyConflictBug :
    (idempotencyMiddleware 0 "POST" (some "k1") "h2" none ⟨[]⟩
        [⟨"k1", "h1", "resp1", some 100⟩]).1 = .proceed "k1" "h2" ∧
    (createTransaction ⟨none, some 1⟩ 0 noFaults "id-2" "k1" "h2"
        ⟨.payment, 100, "bffb7ddf-6bae-44c7-b912-e2cf7a3d78dd"⟩
        ⟨[], [⟨"k1", "h1", "resp1", some 100⟩]⟩ ⟨[]⟩).1 =
      .badRequestValidationErrors ∧
    (createTransaction ⟨none, some 1⟩ 0 noFaults "id-2" "k1" "h2"
        ⟨.payment, 100, "bffb7ddf-6bae-44c7-b912-e2cf7a3d78dd"⟩
        ⟨[], [⟨"k1", "h1", "resp1", some 100⟩]⟩ ⟨[]⟩).2.1 =
      ⟨[], [⟨"k1", "h1", "resp1", some 100⟩]⟩ := by
  decide

/-- **C2**: the service writes the Redis entry inside the `try` block
before `commitTransaction`, so (a) a Redis failure is fatal — it rolls the
durable transaction back and surfaces as an internal error — and (b) when
the commit itself fails, the cache already holds the record of the aborted
operation while the durable store holds nothing. -/
theorem cacheWriteBeforeCommitBug :
    ((createTransaction ⟨none, some 1⟩ 0 ⟨false, false, true, false⟩ "id-1"
        "k1" "h1" ⟨.payment, 100, "bffb7ddf-6bae-44c7-b912-e2cf7a3d78dd"⟩
        ⟨[], []⟩ ⟨[]⟩).1 = .internalError ∧
      (createTransaction ⟨none, some 1⟩ 0 ⟨false, false, true, false⟩ "id-1"
        "k1" "h1" ⟨.payment, 100, "bffb7ddf-6bae-44c7-b912-e2cf7a3d78dd"⟩
        ⟨[], []⟩ ⟨[]⟩).2.1 = ⟨[], []⟩) ∧
    ((createTransaction ⟨none, some 1⟩ 0 ⟨false, false, false, true⟩ "id-1"
        "k1" "h1" ⟨.payment, 100, "bffb7ddf-6bae-44c7-b912-e2cf7a3d78dd"⟩
        ⟨[], []⟩ ⟨[]⟩).1 = .internalError ∧
      (createTransaction ⟨none, some 1⟩ 0 ⟨false, false, false, true⟩ "id-1"
        "k1" "h1" ⟨.payment, 100, "bffb7ddf-6bae-44c7-b912-e2cf7a3d78dd"⟩
        ⟨[], []⟩ ⟨[]⟩).2.1 = ⟨[], []⟩ ∧
      (createTransaction ⟨none, some 1⟩ 0 ⟨false, false, false, true⟩ "id-1"
        "k1" "h1" ⟨.payment, 100, "bffb7ddf-6bae-44c7-b912-e2cf7a3d78dd"⟩
        ⟨[], []⟩ ⟨[]⟩).2.2 =
        ⟨[("idempotency:k1",
          ⟨"k1", "h1",
            serializeResponse ⟨"id-1", .payment, 100, "pending",
              "bffb7ddf-6bae-44c7-b912-e2cf7a3d78dd", 0⟩,
            some 3600000⟩)]⟩) := by
  decide

/-- **C3**: when a committed idempotency record for the key already exists
(the losing side of a concurrent race), the service surfaces the
primary-key violation as the BadRequest mapped from Sequelize's
`ValidationError`; it never re-runs the lookup path, although a re-run
would have found the winner's record and replayed its response. -/
theorem uniqueViolationNoRetryBug :
    (createTransaction ⟨none, some 1⟩ 0 noFaults "id-2" "k1" "h1"
        ⟨.payment, 100, "bffb7ddf-6bae-44c7-b912-e2cf7a3d78dd"⟩
        ⟨[⟨"id-1", .payment, 100, "pending",
            "bffb7ddf-6bae-44c7-b912-e2cf7a3d78dd", 0⟩],
          [⟨"k1", "h1", "winner-resp", some 100⟩]⟩ ⟨[]⟩).1 =
      .badRequestValidationErrors ∧
    (idempotencyMiddleware 0 "POST" (some "k1") "h1" none ⟨[]⟩
        [⟨"k1", "h1", "winner-resp", some 100⟩]).1 =
      .replay "winner-resp" := by
  decide

end Idem
